import Mathlib

/-!
Shallow embedding of `search_article_with_word` (src/src/lib.rs).

The Rust core is `search_xml`, a single pass over XML parse events that
tracks a structural address (`Chapter`) while scanning text nodes for a
search term, then sorts and deduplicates the collected addresses.

Modelling decisions, each traceable to the source:
* XML events are modelled by an inductive `Event`; text and attribute
  values are carried as already-decoded strings (the Rust code decodes
  raw bytes with `encoding::decode(..., utf8)` before any comparison).
* The Rust outcome space is three-valued: `Ok` (normal return),
  `Err` returned via `?` (only the decode calls use `?`), and a
  process `panic!` (the parse-error arm at lib.rs:441 and the
  `Option::unwrap` calls on required attributes). We keep `panic`
  and `err` as distinct constructors of `Fatal` so that "propagated
  as the function's error result" and "crashes the process" are
  distinguishable statements.
* `lst.sort()` uses the derived `Ord` on `Chapter`: lexicographic in
  field declaration order, `None < Some`, numeric on `usize`,
  code-point lexicographic on `String` (Rust byte order on valid
  UTF-8 equals code-point order), and lexicographic on the pair.
  We realise this order by an injective key into nested `Lex`
  products over `WithBot` and model the stable sort by
  `List.insertionSort` of that order; `lst.dedup()` removes
  adjacent equal elements (`dedupAdj`).
-/

namespace SearchArticleWithWord

/-- The `Chapter` struct of lib.rs: one structural address. Field names and
order follow the Rust declaration (`section` is quoted, being a Lean keyword). -/
structure Chapter where
  part : Option Nat
  chapter : Option Nat
  «section» : Option Nat
  subsection : Option Nat
  division : Option Nat
  article : String
  paragraph : Option String
  item : Option String
  sub_item : Option (Nat × String)
  suppl_provision_title : Option String
deriving DecidableEq, Repr

/-- `Chapter::default()`: every `Option` field `None`, `article` empty. -/
def Chapter.empty : Chapter :=
  ⟨none, none, none, none, none, "", none, none, none, none⟩

/-- The `LawParagraph` struct of lib.rs. -/
structure LawParagraph where
  num : String
  chapter_data : List Chapter
deriving DecidableEq, Repr

/-- A decoded `quick_xml` event as consumed by the `search_xml` loop:
element start (with decoded attributes), element end, decoded text,
end of file, or a parse failure reported by the reader (the `Err(e)` arm). -/
inductive Event where
  | start (name : String) (attrs : List (String × String))
  | stop (name : String)
  | text (s : String)
  | eof
  | parseErr (msg : String)
deriving DecidableEq, Repr

/-- How a run of `search_xml` can fail: `panic` models a Rust `panic!` /
`unwrap` (process abort), `err` models an error returned through `?`
(in the source only the `encoding::decode` calls use `?`; since events
arrive pre-decoded here, no embedded path produces `err`). -/
inductive Fatal where
  | panic (msg : String)
  | err (msg : String)
deriving DecidableEq, Repr

/-- The panic produced by `.unwrap()` on a missing required attribute. -/
def unwrapNone : Fatal := .panic "called Option::unwrap on a None value"

/-- `tag.attributes().find(|a| decode(a.key) == key).map(|a| decode(a.value))`. -/
def findAttr (attrs : List (String × String)) (key : String) : Option String :=
  (attrs.find? (fun p => p.1 = key)).map (fun p => p.2)

/-- The `match chapter_num.f { Some(n) => Some(n + 1), None => Some(1) }`
pattern used by every counter branch. -/
def bump : Option Nat → Option Nat
  | some n => some (n + 1)
  | none => some 1

/-- The `Ok(Event::Start(tag))` dispatch of lib.rs lines 70–421, restricted to
its effect on `chapter_num` (the `LawNum` arm, which only flips the capture
flag, is handled in `step`). Each arm rebuilds the whole struct exactly as the
source does; `Article`/`Paragraph`/`Item`/`SubItem1`..`SubItem7` unwrap their
`Num` attribute and `SupplProvision` optionally reads `AmendLawNum`. -/
def stepStart (name : String) (attrs : List (String × String)) (c : Chapter) :
    Except Fatal Chapter :=
  match name with
  | "Part" =>
      .ok ⟨bump c.part, none, none, none, none, c.article, none, none, none,
        c.suppl_provision_title⟩
  | "Chapter" =>
      .ok ⟨c.part, bump c.chapter, none, none, none, c.article, none, none, none,
        c.suppl_provision_title⟩
  | "Section" =>
      .ok ⟨c.part, c.chapter, bump c.«section», none, none, c.article, none, none, none,
        c.suppl_provision_title⟩
  | "Subsection" =>
      .ok ⟨c.part, c.chapter, c.«section», bump c.subsection, none, c.article, none, none,
        none, c.suppl_provision_title⟩
  | "Division" =>
      .ok ⟨c.part, c.chapter, c.«section», c.subsection, bump c.division, c.article, none,
        none, none, c.suppl_provision_title⟩
  | "Article" =>
      match findAttr attrs "Num" with
      | some v =>
          .ok ⟨c.part, c.chapter, c.«section», c.subsection, c.division, v, none, none,
            none, c.suppl_provision_title⟩
      | none => .error unwrapNone
  | "Paragraph" =>
      match findAttr attrs "Num" with
      | some v =>
          .ok ⟨c.part, c.chapter, c.«section», c.subsection, c.division, c.article, some v,
            none, none, c.suppl_provision_title⟩
      | none => .error unwrapNone
  | "Item" =>
      match findAttr attrs "Num" with
      | some v =>
          .ok ⟨c.part, c.chapter, c.«section», c.subsection, c.division, c.article,
            c.paragraph, some v, none, c.suppl_provision_title⟩
      | none => .error unwrapNone
  | "SubItem1" =>
      match findAttr attrs "Num" with
      | some v =>
          .ok ⟨c.part, c.chapter, c.«section», c.subsection, c.division, c.article,
            c.paragraph, c.item, some (1, v), c.suppl_provision_title⟩
      | none => .error unwrapNone
  | "SubItem2" =>
      match findAttr attrs "Num" with
      | some v =>
          .ok ⟨c.part, c.chapter, c.«section», c.subsection, c.division, c.article,
            c.paragraph, c.item, some (2, v), c.suppl_provision_title⟩
      | none => .error unwrapNone
  | "SubItem3" =>
      match findAttr attrs "Num" with
      | some v =>
          .ok ⟨c.part, c.chapter, c.«section», c.subsection, c.division, c.article,
            c.paragraph, c.item, some (3, v), c.suppl_provision_title⟩
      | none => .error unwrapNone
  | "SubItem4" =>
      match findAttr attrs "Num" with
      | some v =>
          .ok ⟨c.part, c.chapter, c.«section», c.subsection, c.division, c.article,
            c.paragraph, c.item, some (4, v), c.suppl_provision_title⟩
      | none => .error unwrapNone
  | "SubItem5" =>
      match findAttr attrs "Num" with
      | some v =>
          .ok ⟨c.part, c.chapter, c.«section», c.subsection, c.division, c.article,
            c.paragraph, c.item, some (5, v), c.suppl_provision_title⟩
      | none => .error unwrapNone
  | "SubItem6" =>
      match findAttr attrs "Num" with
      | some v =>
          .ok ⟨c.part, c.chapter, c.«section», c.subsection, c.division, c.article,
            c.paragraph, c.item, some (6, v), c.suppl_provision_title⟩
      | none => .error unwrapNone
  | "SubItem7" =>
      match findAttr attrs "Num" with
      | some v =>
          .ok ⟨c.part, c.chapter, c.«section», c.subsection, c.division, c.article,
            c.paragraph, c.item, some (7, v), c.suppl_provision_title⟩
      | none => .error unwrapNone
  | "SupplProvision" =>
      .ok ⟨none, none, none, none, none, "", none, none, none,
        findAttr attrs "AmendLawNum"⟩
  | _ => .ok c

/-- `str::contains` on decoded text: `needle` occurs as a contiguous
character run of `hay` (on valid UTF-8, Rust's byte-substring test agrees
with this character-level test). `prefixAt` checks a match at the head. -/
def prefixAt : List Char → List Char → Bool
  | [], _ => true
  | _ :: _, [] => false
  | a :: as, b :: bs => a = b && prefixAt as bs

/-- Search for `needle` starting at every suffix of `hay`. -/
def infixAt (needle : List Char) : List Char → Bool
  | [] => prefixAt needle []
  | hay@(_ :: rest) => prefixAt needle hay || infixAt needle rest

/-- `text_str.contains(search_str)`. -/
def strContains (hay needle : String) : Bool :=
  infixAt needle.toList hay.toList

/-- The loop-local mutable state of `search_xml`: the match list `lst`,
the current address `chapter_num`, the captured `law_num`, and the
law-number capture flag. -/
structure LoopState where
  lst : List Chapter
  chapter_num : Chapter
  law_num : String
  is_law_num_mode : Bool
deriving DecidableEq, Repr

/-- The state at loop entry (lib.rs lines 59–63). -/
def initState : LoopState :=
  ⟨[], Chapter.empty, "", false⟩

/-- One iteration of the `search_xml` event loop on a non-`Eof` event. -/
def step (search_str : String) (st : LoopState) : Event → Except Fatal LoopState
  | .start name attrs =>
      if name = "LawNum" then .ok { st with is_law_num_mode := true }
      else
        match stepStart name attrs st.chapter_num with
        | .ok c => .ok { st with chapter_num := c }
        | .error f => .error f
  | .stop name =>
      if name = "LawNum" then .ok { st with is_law_num_mode := false } else .ok st
  | .text t =>
      if st.is_law_num_mode then .ok { st with law_num := t }
      else if strContains t search_str then .ok { st with lst := st.lst ++ [st.chapter_num] }
      else .ok st
  | .eof => .ok st
  | .parseErr msg => .error (.panic ("法令名APIの結果のXMLの解析中のエラー: " ++ msg))

/-- The `loop { match reader.read_event ... }` driver: consume events until
`Eof` (which breaks) or a fatal condition (which aborts the run). -/
def runEvents (search_str : String) (st : LoopState) : List Event → Except Fatal LoopState
  | [] => .ok st
  | e :: rest =>
      match e with
      | .eof => .ok st
      | _ =>
          match step search_str st e with
          | .ok st' => runEvents search_str st' rest
          | .error f => .error f

/-- Key type realising the derived `Ord` of `Chapter`: nested left-to-right
lexicographic products in field declaration order, with `Option` mapped to
`WithBot` (Rust's `None < Some`). -/
abbrev ChapterKey :=
  Lex (WithBot Nat × Lex (WithBot Nat × Lex (WithBot Nat × Lex (WithBot Nat ×
    Lex (WithBot Nat × Lex (String × Lex (WithBot String × Lex (WithBot String ×
      Lex (WithBot (Lex (Nat × String)) × WithBot String)))))))))

/-- `Option<usize>` under the derived Rust order (`None` least). -/
def obN : Option Nat → WithBot Nat
  | none => ⊥
  | some n => (n : WithBot Nat)

/-- `Option<String>` under the derived Rust order (`None` least). -/
def obS : Option String → WithBot String
  | none => ⊥
  | some s => (s : WithBot String)

/-- `Option<(usize, String)>` under the derived Rust order: `None` least,
pairs lexicographic depth-then-code. -/
def obP : Option (Nat × String) → WithBot (Lex (Nat × String))
  | none => ⊥
  | some p => ((toLex p : Lex (Nat × String)) : WithBot (Lex (Nat × String)))

/-- The order key of a `Chapter`, fields in declaration order. -/
def toKey (c : Chapter) : ChapterKey :=
  toLex (obN c.part, toLex (obN c.chapter, toLex (obN c.«section»,
    toLex (obN c.subsection, toLex (obN c.division, toLex (c.article,
      toLex (obS c.paragraph, toLex (obS c.item,
        toLex (obP c.sub_item, obS c.suppl_provision_title)))))))))

/-- The total order used by `lst.sort()` (derived `Ord` on `Chapter`). -/
def chapterLe (a b : Chapter) : Prop := toKey a ≤ toKey b

/-- The strict form of `chapterLe`. -/
def chapterLt (a b : Chapter) : Prop := toKey a < toKey b

instance : DecidableRel chapterLe :=
  fun a b => inferInstanceAs (Decidable (toKey a ≤ toKey b))

instance : DecidableRel chapterLt :=
  fun a b => inferInstanceAs (Decidable (toKey a < toKey b))

instance : IsTotal Chapter chapterLe := ⟨fun a b => le_total (toKey a) (toKey b)⟩

instance : IsTrans Chapter chapterLe := ⟨fun _ _ _ hab hbc => le_trans hab hbc⟩

/-- `lst.sort()`: a stable sort by the derived total order. -/
def sortChapters (l : List Chapter) : List Chapter :=
  List.insertionSort chapterLe l

/-- `Vec::dedup`: remove adjacent equal elements. -/
def dedupAdj : List Chapter → List Chapter
  | [] => []
  | [a] => [a]
  | a :: b :: rest =>
      if a = b then dedupAdj (b :: rest) else a :: dedupAdj (b :: rest)

/-- `search_xml`: run the event loop from the initial state, then
`lst.sort(); lst.dedup();` and assemble the `LawParagraph`. -/
def search_xml (search_str : String) (events : List Event) :
    Except Fatal LawParagraph :=
  match runEvents search_str initState events with
  | .ok st => .ok ⟨st.law_num, dedupAdj (sortChapters st.lst)⟩
  | .error f => .error f

/-- The five sibling-counter element kinds (`Part`/`Chapter`/`Section`/
`Subsection`/`Division` branches of the event dispatch). -/
inductive CounterKind where
  | cPart
  | cChapter
  | cSection
  | cSubsection
  | cDivision
deriving DecidableEq, Repr, Fintype

/-- The XML element name handled by each counter branch. -/
def kindName : CounterKind → String
  | .cPart => "Part"
  | .cChapter => "Chapter"
  | .cSection => "Section"
  | .cSubsection => "Subsection"
  | .cDivision => "Division"

/-- Nesting rank: `Part` outermost (0) down to `Division` (4). -/
def rank : CounterKind → Nat
  | .cPart => 0
  | .cChapter => 1
  | .cSection => 2
  | .cSubsection => 3
  | .cDivision => 4

/-- The counter field of a `Chapter` matching a kind. -/
def getCtr : CounterKind → Chapter → Option Nat
  | .cPart, c => c.part
  | .cChapter, c => c.chapter
  | .cSection, c => c.«section»
  | .cSubsection, c => c.subsection
  | .cDivision, c => c.division

/-- One counter branch: the matching field is bumped, fields of lower rank
are untouched, fields of higher rank (deeper nesting) are cleared. -/
theorem stepStart_counter (k : CounterKind) (attrs : List (String × String))
    (c : Chapter) :
    ∃ c', stepStart (kindName k) attrs c = .ok c' ∧
      getCtr k c' = bump (getCtr k c) ∧
      (∀ k', rank k' < rank k → getCtr k' c' = getCtr k' c) ∧
      (∀ k', rank k < rank k' → getCtr k' c' = none) := by
  cases k <;>
    exact ⟨_, rfl, rfl,
      fun k' h => by cases k' <;> first | rfl | simp [rank] at h,
      fun k' h => by cases k' <;> first | rfl | simp [rank] at h⟩

/-- Counter element names are never the law-number element. -/
theorem kindName_ne_lawNum (k : CounterKind) : kindName k ≠ "LawNum" := by
  cases k <;> decide

/-- Kinds with equal rank are equal. -/
theorem rank_injective (k k' : CounterKind) (h : rank k = rank k') : k = k' := by
  cases k <;> cases k' <;> first | rfl | simp [rank] at h

theorem runEvents_nil (s : String) (st : LoopState) : runEvents s st [] = .ok st := rfl

theorem runEvents_eof (s : String) (st : LoopState) (rest : List Event) :
    runEvents s st (.eof :: rest) = .ok st := rfl

theorem runEvents_cons_ok {s : String} {st st' : LoopState} {e : Event}
    (rest : List Event) (h : step s st e = .ok st') (he : e ≠ Event.eof) :
    runEvents s st (e :: rest) = runEvents s st' rest := by
  cases e with
  | eof => exact absurd rfl he
  | start n a => simp [runEvents, h]
  | stop n => simp [runEvents, h]
  | text t => simp [runEvents, h]
  | parseErr m => simp [runEvents, h]

theorem runEvents_cons_error {s : String} {st : LoopState} {e : Event} {f : Fatal}
    (rest : List Event) (h : step s st e = .error f) (he : e ≠ Event.eof) :
    runEvents s st (e :: rest) = .error f := by
  cases e with
  | eof => exact absurd rfl he
  | start n a => simp [runEvents, h]
  | stop n => simp [runEvents, h]
  | text t => simp [runEvents, h]
  | parseErr m => simp [runEvents, h]

/-- Splitting a run at an append point, when the first half does not
contain `Eof` (which would break out of the loop early). -/
theorem runEvents_append {s : String} {st : LoopState} {es es' : List Event}
    (h : Event.eof ∉ es) :
    runEvents s st (es ++ es') =
      match runEvents s st es with
      | .ok st' => runEvents s st' es'
      | .error f => .error f := by
  induction es generalizing st with
  | nil => simp [runEvents]
  | cons e rest ih =>
    have he : e ≠ Event.eof := fun hh => h (hh ▸ List.mem_cons_self _ _)
    have h' : Event.eof ∉ rest := fun hm => h (List.mem_cons_of_mem _ hm)
    cases hstep : step s st e with
    | ok st1 =>
        rw [List.cons_append, runEvents_cons_ok _ hstep he,
          runEvents_cons_ok _ hstep he, ih h']
    | error f =>
        rw [List.cons_append, runEvents_cons_error _ hstep he,
          runEvents_cons_error _ hstep he]

/-- Append splitting when the first half runs to completion. -/
theorem runEvents_append_ok {s : String} {st st1 : LoopState} {es : List Event}
    (es' : List Event) (h : Event.eof ∉ es) (h1 : runEvents s st es = .ok st1) :
    runEvents s st (es ++ es') = runEvents s st1 es' := by
  rw [runEvents_append h, h1]

/-- Append splitting when the first half aborts. -/
theorem runEvents_append_error {s : String} {st : LoopState} {es : List Event}
    {f : Fatal} (es' : List Event) (h : Event.eof ∉ es)
    (h1 : runEvents s st es = .error f) :
    runEvents s st (es ++ es') = .error f := by
  rw [runEvents_append h, h1]

/-- Auxiliary induction for sibling counting: starting from a state whose
matching counter is `some m` and whose deeper counters are clear, `n` more
sibling starts of the same kind leave `some (m + n)`, preserve lower-rank
counters and keep deeper ones clear. -/
theorem run_replicate_some (s : String) (k : CounterKind) :
    ∀ (n : Nat) (st : LoopState) (m : Nat),
      getCtr k st.chapter_num = some m →
      (∀ k', rank k < rank k' → getCtr k' st.chapter_num = none) →
      ∃ st', runEvents s st (List.replicate n (.start (kindName k) [])) = .ok st' ∧
        getCtr k st'.chapter_num = some (m + n) ∧
        (∀ k', rank k' < rank k → getCtr k' st'.chapter_num = getCtr k' st.chapter_num) ∧
        (∀ k', rank k < rank k' → getCtr k' st'.chapter_num = none)
  | 0, st, m, hm, hb => ⟨st, rfl, by simpa using hm, fun _ _ => rfl, hb⟩
  | n + 1, st, m, hm, hb => by
    obtain ⟨c', hstep, hself, habove, hbel⟩ := stepStart_counter k [] st.chapter_num
    have hstep' : step s st (.start (kindName k) []) = .ok { st with chapter_num := c' } := by
      simp [step, kindName_ne_lawNum k, hstep]
    have hself' : getCtr k c' = some (m + 1) := by rw [hself, hm]; rfl
    obtain ⟨st', hrun, h1, h2, h3⟩ :=
      run_replicate_some s k n { st with chapter_num := c' } (m + 1) hself' hbel
    refine ⟨st', ?_, ?_, ?_, h3⟩
    · rw [List.replicate_succ, runEvents_cons_ok _ hstep' nofun, hrun]
    · rw [h1]; congr 1; omega
    · intro k' hk'
      rw [h2 k' hk']
      exact habove k' hk'

theorem obN_injective {o o' : Option Nat} (h : obN o = obN o') : o = o' := by
  cases o <;> cases o' <;> simp_all [obN]

theorem obS_injective {o o' : Option String} (h : obS o = obS o') : o = o' := by
  cases o <;> cases o' <;> simp_all [obS]

theorem obP_injective {o o' : Option (Nat × String)} (h : obP o = obP o') : o = o' := by
  cases o <;> cases o' <;> simp_all [obP]

theorem toKey_injective {a b : Chapter} (h : toKey a = toKey b) : a = b := by
  cases a
  cases b
  simp only [toKey, toLex_inj, Prod.mk.injEq] at h
  obtain ⟨h1, h2, h3, h4, h5, h6, h7, h8, h9, h10⟩ := h
  simp only [Chapter.mk.injEq]
  exact ⟨obN_injective h1, obN_injective h2, obN_injective h3, obN_injective h4,
    obN_injective h5, h6, obS_injective h7, obS_injective h8, obP_injective h9,
    obS_injective h10⟩

theorem chapterLe_antisymm {a b : Chapter} (h : chapterLe a b) (h' : chapterLe b a) :
    a = b :=
  toKey_injective (le_antisymm h h')

theorem chapterLt_of_le_of_ne {a b : Chapter} (h : chapterLe a b) (hne : a ≠ b) :
    chapterLt a b :=
  lt_of_le_of_ne h (fun hk => hne (toKey_injective hk))

theorem chapterLt_of_lt_of_le {a b c : Chapter} (h : chapterLt a b) (h' : chapterLe b c) :
    chapterLt a c :=
  lt_of_lt_of_le h h'

/-- `Vec::dedup` never invents or loses values: membership is preserved. -/
theorem mem_dedupAdj : ∀ (l : List Chapter) (c : Chapter), c ∈ dedupAdj l ↔ c ∈ l
  | [], c => by simp [dedupAdj]
  | [a], c => by simp [dedupAdj]
  | a :: b :: rest, c => by
    by_cases hab : a = b <;>
      simp [dedupAdj, hab, mem_dedupAdj (b :: rest)]

/-- Deduplicating a sorted list yields a strictly increasing list. -/
theorem dedupAdj_pairwise :
    ∀ l : List Chapter, List.Sorted chapterLe l → List.Pairwise chapterLt (dedupAdj l)
  | [], _ => by simp [dedupAdj]
  | [a], _ => by simp [dedupAdj]
  | a :: b :: rest, h => by
    have hab : chapterLe a b := (List.sorted_cons.mp h).1 b (List.mem_cons_self _ _)
    have htail : List.Sorted chapterLe (b :: rest) := (List.sorted_cons.mp h).2
    have ih := dedupAdj_pairwise (b :: rest) htail
    by_cases he : a = b
    · simpa [dedupAdj, he] using ih
    · rw [dedupAdj, if_neg he]
      refine List.pairwise_cons.mpr ⟨?_, ih⟩
      intro y hy
      have hyb : y ∈ b :: rest := (mem_dedupAdj _ _).mp hy
      have hby : chapterLe b y := by
        rcases List.mem_cons.mp hyb with h' | h'
        · exact h' ▸ le_refl (toKey b)
        · exact (List.sorted_cons.mp htail).1 y h'
      exact chapterLt_of_lt_of_le (chapterLt_of_le_of_ne hab he) hby

/-- The sorted output of `lst.sort()`. -/
theorem sortChapters_sorted (l : List Chapter) :
    List.Sorted chapterLe (sortChapters l) :=
  List.sorted_insertionSort chapterLe l

/-- `lst.sort()` permutes, so membership is preserved. -/
theorem mem_sortChapters (l : List Chapter) (c : Chapter) :
    c ∈ sortChapters l ↔ c ∈ l :=
  (List.perm_insertionSort chapterLe l).mem_iff

/-- Claim C1: a text event processed outside law-number capture mode appends
exactly one copy of the current address to the match list iff the decoded
text contains the search term as a literal, case-sensitive substring, and
leaves the address, the captured law number and the capture flag unchanged. -/
theorem c1_text_event_match (s t : String) (st : LoopState)
    (h : st.is_law_num_mode = false) :
    step s st (.text t) =
      .ok ⟨if strContains t s then st.lst ++ [st.chapter_num] else st.lst,
        st.chapter_num, st.law_num, st.is_law_num_mode⟩ := by
  obtain ⟨lst, cn, ln, m⟩ := st
  have hm : m = false := h
  subst hm
  by_cases hc : strContains t s <;> simp [step, hc]

/-- Witness for C1: a matching text appends the one current address, a
non-matching text appends nothing. -/
theorem c1_text_event_match_witness :
    step "特例" initState (.text "この特例措置を") =
      .ok ⟨[Chapter.empty], Chapter.empty, "", false⟩ ∧
    step "特例" initState (.text "別の条文") = .ok initState := by
  constructor
  · have h := c1_text_event_match "特例" "この特例措置を" initState rfl
    rw [h, if_pos (by decide)]
    rfl
  · have h := c1_text_event_match "特例" "別の条文" initState rfl
    rw [h, if_neg (by decide)]

/-- Claim C2: N sibling start events of one counter kind, begun where that
counter and all deeper ones are clear (a fresh scope), leave the matching
counter at `some N` and every other counter field unchanged. -/
theorem c2_counter_sibling_sequence (s : String) (k : CounterKind) (st : LoopState)
    (n : Nat) (hn : 1 ≤ n) (h0 : getCtr k st.chapter_num = none)
    (hbelow : ∀ k', rank k < rank k' → getCtr k' st.chapter_num = none) :
    ∃ st', runEvents s st (List.replicate n (.start (kindName k) [])) = .ok st' ∧
      getCtr k st'.chapter_num = some n ∧
      ∀ k', k' ≠ k → getCtr k' st'.chapter_num = getCtr k' st.chapter_num := by
  obtain ⟨n, rfl⟩ : ∃ n', n = n' + 1 := ⟨n - 1, by omega⟩
  obtain ⟨c', hstep, hself, habove, hbel⟩ := stepStart_counter k [] st.chapter_num
  have hstep' : step s st (.start (kindName k) []) =
      .ok { st with chapter_num := c' } := by
    simp [step, kindName_ne_lawNum k, hstep]
  have hself' : getCtr k c' = some 1 := by rw [hself, h0]; rfl
  obtain ⟨st', hrun, h1, h2, h3⟩ :=
    run_replicate_some s k n { st with chapter_num := c' } 1 hself' hbel
  refine ⟨st', ?_, ?_, ?_⟩
  · rw [List.replicate_succ, runEvents_cons_ok _ hstep' nofun, hrun]
  · rw [h1]; congr 1; omega
  · intro k' hk'
    rcases Nat.lt_trichotomy (rank k') (rank k) with hlt | heq | hgt
    · rw [h2 k' hlt]; exact habove k' hlt
    · exact absurd (rank_injective k' k heq) hk'
    · rw [h3 k' hgt, hbelow k' hgt]

/-- Witness for C2: three `Chapter` starts from the initial state leave
`chapter = some 3` and every other counter as it was. -/
theorem c2_counter_sibling_sequence_witness :
    ∃ st', runEvents "x" initState
        (List.replicate 3 (.start (kindName .cChapter) [])) = .ok st' ∧
      getCtr .cChapter st'.chapter_num = some 3 ∧
      ∀ k', k' ≠ CounterKind.cChapter →
        getCtr k' st'.chapter_num = getCtr k' initState.chapter_num :=
  c2_counter_sibling_sequence "x" .cChapter initState 3 (by decide) (by decide)
    (by decide)

/-- Counterexample to claim C3 as stated: entering `SupplProvision` without
an `AmendLawNum` attribute stores `none` in `suppl_provision_title`, which is
not the empty string the claim asserts. -/
theorem c3_counterexample :
    stepStart "SupplProvision" [] Chapter.empty =
      .ok ⟨none, none, none, none, none, "", none, none, none, none⟩ ∧
    (none : Option String) ≠ some "" := ⟨rfl, by decide⟩

/-- Claim C3 (amended): a `SupplProvision` start clears all primary-hierarchy
fields and sets `suppl_provision_title` to `some` of the `AmendLawNum`
attribute value when present, and to `none` — not to the empty string — when
the attribute is absent. -/
theorem c3_suppl_provision_start (attrs : List (String × String)) (c : Chapter) :
    stepStart "SupplProvision" attrs c =
      .ok ⟨none, none, none, none, none, "", none, none, none,
        findAttr attrs "AmendLawNum"⟩ := rfl

/-- Claim C6: a `Chapter` start bumps the chapter counter, keeps `part`, and
clears `section`/`subsection`/`division`; in the scenario Part, Chapter,
Section, second Chapter, the final address has `section = none`, `part`
unchanged at `some 1` and `chapter = some 2`. -/
theorem c6_chapter_cascade :
    (∀ (attrs : List (String × String)) (c : Chapter),
      stepStart "Chapter" attrs c =
        .ok ⟨c.part, bump c.chapter, none, none, none, c.article, none, none, none,
          c.suppl_provision_title⟩) ∧
    runEvents "w" initState
        [.start "Part" [], .start "Chapter" [], .start "Section" [],
          .start "Chapter" []] =
      .ok ⟨[], ⟨some 1, some 2, none, none, none, "", none, none, none, none⟩,
        "", false⟩ :=
  ⟨fun _ _ => rfl, rfl⟩

/-- Claim C7: inside law-number capture mode a text event overwrites the law
identifier by plain assignment (the match list is untouched, so the text is
never tested against the search term); ending any element other than
`LawNum` changes nothing, ending `LawNum` only clears the capture flag; with
two text nodes inside `LawNum` the result keeps the last one. -/
theorem c7_law_num_capture (s : String) :
    (∀ (st : LoopState) (t : String), st.is_law_num_mode = true →
      step s st (.text t) = .ok ⟨st.lst, st.chapter_num, t, st.is_law_num_mode⟩) ∧
    (∀ (st : LoopState) (name : String), name ≠ "LawNum" →
      step s st (.stop name) = .ok st) ∧
    (∀ st : LoopState,
      step s st (.stop "LawNum") = .ok ⟨st.lst, st.chapter_num, st.law_num, false⟩) ∧
    search_xml s [.start "LawNum" [], .text "号A", .text "号B", .stop "LawNum", .eof] =
      .ok ⟨"号B", []⟩ := by
  refine ⟨?_, ?_, ?_, rfl⟩
  · intro st t h; simp [step, h]
  · intro st name h; simp [step, h]
  · intro st; simp [step]

/-- Witness for C7 at concrete states: overwrite semantics of the capture
text, inert non-`LawNum` end tag, and the `LawNum` end tag clearing only the
capture flag. -/
theorem c7_law_num_capture_witness :
    step "w" ⟨[], Chapter.empty, "旧番号", true⟩ (.text "新番号") =
      .ok ⟨[], Chapter.empty, "新番号", true⟩ ∧
    step "w" initState (.stop "Article") = .ok initState ∧
    step "w" ⟨[], Chapter.empty, "n", true⟩ (.stop "LawNum") =
      .ok ⟨[], Chapter.empty, "n", false⟩ :=
  ⟨(c7_law_num_capture "w").1 ⟨[], Chapter.empty, "旧番号", true⟩ "新番号" rfl,
    (c7_law_num_capture "w").2.1 initState "Article" (by decide),
    (c7_law_num_capture "w").2.2.1 ⟨[], Chapter.empty, "n", true⟩⟩

/-- Counterexample to claim C4 as stated: the exclusivity of the two
addressing sub-spaces does not hold for every reachable state — after a
`SupplProvision` start, a later `Part` start repopulates the primary
hierarchy (`part = some 1`) while `suppl_provision_title` remains set. -/
theorem c4_counterexample :
    runEvents "w" initState
        [.start "SupplProvision" [("AmendLawNum", "平成三十年法律第一号")],
          .start "Part" []] =
      .ok ⟨[], ⟨some 1, none, none, none, none, "", none, none, none,
        some "平成三十年法律第一号"⟩, "", false⟩ ∧
    (Chapter.mk (some 1) none none none none "" none none none
        (some "平成三十年法律第一号")).part ≠ none ∧
    (Chapter.mk (some 1) none none none none "" none none none
        (some "平成三十年法律第一号")).suppl_provision_title ≠ none :=
  ⟨rfl, by decide, by decide⟩

/-- Claim C4 (amended): the exclusivity invariant holds at the moment a
supplementary provision is entered — after any eof-free event prefix, the
state immediately following a `SupplProvision` start has every
primary-hierarchy field cleared — but it need not persist across later
events (see the counterexample). -/
theorem c4_suppl_entry_clears (s : String) (events : List Event)
    (attrs : List (String × String)) (st' : LoopState)
    (hno : Event.eof ∉ events)
    (h : runEvents s initState (events ++ [.start "SupplProvision" attrs]) = .ok st') :
    st'.chapter_num.part = none ∧ st'.chapter_num.chapter = none ∧
    st'.chapter_num.«section» = none ∧ st'.chapter_num.subsection = none ∧
    st'.chapter_num.division = none ∧ st'.chapter_num.article = "" ∧
    st'.chapter_num.paragraph = none ∧ st'.chapter_num.item = none ∧
    st'.chapter_num.sub_item = none := by
  cases hrun : runEvents s initState events with
  | error f =>
    rw [runEvents_append_error _ hno hrun] at h
    exact Except.noConfusion h
  | ok st1 =>
    rw [runEvents_append_ok _ hno hrun] at h
    have hstep : step s st1 (.start "SupplProvision" attrs) =
        .ok { st1 with chapter_num := ⟨none, none, none, none, none, "", none, none,
          none, findAttr attrs "AmendLawNum"⟩ } := rfl
    rw [runEvents_cons_ok _ hstep nofun, runEvents_nil] at h
    cases h
    exact ⟨rfl, rfl, rfl, rfl, rfl, rfl, rfl, rfl, rfl⟩

/-- Witness for C4 (amended): entering a supplementary provision right after
a `Chapter` start clears every primary field. -/
theorem c4_suppl_entry_clears_witness :
    (⟨[], ⟨none, none, none, none, none, "", none, none, none, none⟩, "", false⟩ :
        LoopState).chapter_num.part = none ∧
    (⟨[], ⟨none, none, none, none, none, "", none, none, none, none⟩, "", false⟩ :
        LoopState).chapter_num.chapter = none ∧
    (⟨[], ⟨none, none, none, none, none, "", none, none, none, none⟩, "", false⟩ :
        LoopState).chapter_num.«section» = none ∧
    (⟨[], ⟨none, none, none, none, none, "", none, none, none, none⟩, "", false⟩ :
        LoopState).chapter_num.subsection = none ∧
    (⟨[], ⟨none, none, none, none, none, "", none, none, none, none⟩, "", false⟩ :
        LoopState).chapter_num.division = none ∧
    (⟨[], ⟨none, none, none, none, none, "", none, none, none, none⟩, "", false⟩ :
        LoopState).chapter_num.article = "" ∧
    (⟨[], ⟨none, none, none, none, none, "", none, none, none, none⟩, "", false⟩ :
        LoopState).chapter_num.paragraph = none ∧
    (⟨[], ⟨none, none, none, none, none, "", none, none, none, none⟩, "", false⟩ :
        LoopState).chapter_num.item = none ∧
    (⟨[], ⟨none, none, none, none, none, "", none, none, none, none⟩, "", false⟩ :
        LoopState).chapter_num.sub_item = none :=
  c4_suppl_entry_clears "w" [.start "Chapter" []] [] _ (by decide) rfl

/-- Claim C5: on a successful run, the returned `chapter_data` is strictly
sorted under the declared field-by-field total order (hence free of
duplicates) and its members are exactly the addresses appended to the match
list during the stream. -/
theorem c5_sorted_dedup (s : String) (events : List Event) (st' : LoopState)
    (h : runEvents s initState events = .ok st') :
    search_xml s events = .ok ⟨st'.law_num, dedupAdj (sortChapters st'.lst)⟩ ∧
    List.Pairwise chapterLt (dedupAdj (sortChapters st'.lst)) ∧
    ∀ c, c ∈ dedupAdj (sortChapters st'.lst) ↔ c ∈ st'.lst := by
  refine ⟨?_, ?_, ?_⟩
  · simp [search_xml, h]
  · exact dedupAdj_pairwise _ (sortChapters_sorted st'.lst)
  · intro c; rw [mem_dedupAdj, mem_sortChapters]

/-- The address with only `article = "a"` set, as produced after
`<Article Num="a">`. -/
def articleA : Chapter := ⟨none, none, none, none, none, "a", none, none, none, none⟩

/-- The address with only `article = "b"` set. -/
def articleB : Chapter := ⟨none, none, none, none, none, "b", none, none, none, none⟩

theorem articleA_le_articleB : chapterLe articleA articleB := by
  have hab : ("a" : String) < "b" := by
    rw [String.lt_iff_toList_lt]; decide
  simp [chapterLe, toKey, articleA, articleB, obN, obS, obP, Prod.Lex.le_iff,
    Prod.Lex.lt_iff, hab]

theorem not_articleB_le_articleA : ¬ chapterLe articleB articleA := by
  have hab : ("a" : String) < "b" := by
    rw [String.lt_iff_toList_lt]; decide
  intro h
  have := chapterLe_antisymm h articleA_le_articleB
  simp [articleA, articleB] at this

theorem sort_bab : sortChapters [articleB, articleA, articleB] =
    [articleA, articleB, articleB] := by
  have h1 : chapterLe articleA articleB := articleA_le_articleB
  have h2 : ¬ chapterLe articleB articleA := not_articleB_le_articleA
  have h3 : chapterLe articleB articleB := le_refl (toKey articleB)
  simp [sortChapters, List.insertionSort, List.orderedInsert, h1, h2, h3]

theorem dedup_abb : dedupAdj [articleA, articleB, articleB] = [articleA, articleB] := by
  have hne : articleA ≠ articleB := by decide
  simp [dedupAdj, hne]

/-- Witness for C5: a stream appending addresses `b, a, b` (articles out of
order, with one duplicate) yields the sorted, deduplicated `[a, b]`. -/
theorem c5_sorted_dedup_witness :
    search_xml "hit" [.start "Article" [("Num", "b")], .text "xhit",
        .start "Article" [("Num", "a")], .text "hit!",
        .start "Article" [("Num", "b")], .text "hity", .eof] =
      .ok ⟨"", [articleA, articleB]⟩ ∧
    List.Pairwise chapterLt [articleA, articleB] ∧
    (∀ c, c ∈ [articleA, articleB] ↔ c ∈ [articleB, articleA, articleB]) := by
  obtain ⟨h1, h2, h3⟩ := c5_sorted_dedup "hit"
    [.start "Article" [("Num", "b")], .text "xhit",
      .start "Article" [("Num", "a")], .text "hit!",
      .start "Article" [("Num", "b")], .text "hity", .eof]
    ⟨[articleB, articleA, articleB], articleB, "", false⟩ rfl
  have he : dedupAdj (sortChapters [articleB, articleA, articleB]) =
      [articleA, articleB] := by rw [sort_bab, dedup_abb]
  refine ⟨?_, ?_, ?_⟩
  · rw [← he]; exact h1
  · rw [← he]; exact h2
  · nth_rewrite 1 [← he]; exact h3

/-- "No law-number text node is observed": simulate only the capture flag
along the stream (up to `Eof` or a parse failure, where the loop stops) and
check no text event falls inside capture mode. -/
def noLawNumTextB : Bool → List Event → Bool
  | _, [] => true
  | m, .start n _ :: rest => noLawNumTextB (if n = "LawNum" then true else m) rest
  | m, .stop n :: rest => noLawNumTextB (if n = "LawNum" then false else m) rest
  | m, .text _ :: rest => if m then false else noLawNumTextB m rest
  | _, .eof :: _ => true
  | _, .parseErr _ :: _ => true

/-- "No text node matches the search term": simulate the capture flag and
check that no text event outside capture mode contains the term. -/
def noMatchB (s : String) : Bool → List Event → Bool
  | _, [] => true
  | m, .start n _ :: rest => noMatchB s (if n = "LawNum" then true else m) rest
  | m, .stop n :: rest => noMatchB s (if n = "LawNum" then false else m) rest
  | m, .text t :: rest =>
      if m then noMatchB s m rest
      else if strContains t s then false else noMatchB s m rest
  | _, .eof :: _ => true
  | _, .parseErr _ :: _ => true

/-- If no text event is seen in capture mode, the captured law number is
untouched by the run. -/
theorem law_num_preserved (s : String) :
    ∀ (events : List Event) (st st' : LoopState),
      runEvents s st events = .ok st' →
      noLawNumTextB st.is_law_num_mode events = true →
      st'.law_num = st.law_num
  | [], _, _, h, _ => by cases h; rfl
  | e :: rest, st, st', h, hn => by
    cases e with
    | start name attrs =>
      by_cases hln : name = "LawNum"
      · subst hln
        have hstep : step s st (.start "LawNum" attrs) =
            .ok { st with is_law_num_mode := true } := by simp [step]
        rw [runEvents_cons_ok rest hstep nofun] at h
        have hn' : noLawNumTextB true rest = true := by
          simpa [noLawNumTextB] using hn
        exact law_num_preserved s rest { st with is_law_num_mode := true } st' h hn'
      · cases hss : stepStart name attrs st.chapter_num with
        | error f =>
          have hstep : step s st (.start name attrs) = .error f := by
            simp [step, hln, hss]
          rw [runEvents_cons_error rest hstep nofun] at h
          exact Except.noConfusion h
        | ok c =>
          have hstep : step s st (.start name attrs) =
              .ok { st with chapter_num := c } := by simp [step, hln, hss]
          rw [runEvents_cons_ok rest hstep nofun] at h
          have hn' : noLawNumTextB st.is_law_num_mode rest = true := by
            simpa [noLawNumTextB, hln] using hn
          exact law_num_preserved s rest { st with chapter_num := c } st' h hn'
    | stop name =>
      by_cases hln : name = "LawNum"
      · subst hln
        have hstep : step s st (.stop "LawNum") =
            .ok { st with is_law_num_mode := false } := by simp [step]
        rw [runEvents_cons_ok rest hstep nofun] at h
        have hn' : noLawNumTextB false rest = true := by
          simpa [noLawNumTextB] using hn
        exact law_num_preserved s rest { st with is_law_num_mode := false } st' h hn'
      · have hstep : step s st (.stop name) = .ok st := by simp [step, hln]
        rw [runEvents_cons_ok rest hstep nofun] at h
        have hn' : noLawNumTextB st.is_law_num_mode rest = true := by
          simpa [noLawNumTextB, hln] using hn
        exact law_num_preserved s rest st st' h hn'
    | text t =>
      cases hm : st.is_law_num_mode with
      | true => rw [hm] at hn; simp [noLawNumTextB] at hn
      | false =>
        have hn' : noLawNumTextB st.is_law_num_mode rest = true := by
          rw [hm] at hn ⊢; simpa [noLawNumTextB] using hn
        by_cases hc : strContains t s
        · have hstep : step s st (.text t) =
              .ok { st with lst := st.lst ++ [st.chapter_num] } := by
            simp [step, hm, hc]
          rw [runEvents_cons_ok rest hstep nofun] at h
          exact law_num_preserved s rest { st with lst := st.lst ++ [st.chapter_num] } st' h hn'
        · have hstep : step s st (.text t) = .ok st := by simp [step, hm, hc]
          rw [runEvents_cons_ok rest hstep nofun] at h
          exact law_num_preserved s rest st st' h hn'
    | eof => rw [runEvents_eof] at h; cases h; rfl
    | parseErr msg =>
      have hstep : step s st (.parseErr msg) =
          .error (.panic ("法令名APIの結果のXMLの解析中のエラー: " ++ msg)) := rfl
      rw [runEvents_cons_error rest hstep nofun] at h
      exact Except.noConfusion h

/-- If no out-of-capture text event contains the term, the match list is
untouched by the run. -/
theorem lst_preserved (s : String) :
    ∀ (events : List Event) (st st' : LoopState),
      runEvents s st events = .ok st' →
      noMatchB s st.is_law_num_mode events = true →
      st'.lst = st.lst
  | [], _, _, h, _ => by cases h; rfl
  | e :: rest, st, st', h, hn => by
    cases e with
    | start name attrs =>
      by_cases hln : name = "LawNum"
      · subst hln
        have hstep : step s st (.start "LawNum" attrs) =
            .ok { st with is_law_num_mode := true } := by simp [step]
        rw [runEvents_cons_ok rest hstep nofun] at h
        have hn' : noMatchB s true rest = true := by simpa [noMatchB] using hn
        exact lst_preserved s rest { st with is_law_num_mode := true } st' h hn'
      · cases hss : stepStart name attrs st.chapter_num with
        | error f =>
          have hstep : step s st (.start name attrs) = .error f := by
            simp [step, hln, hss]
          rw [runEvents_cons_error rest hstep nofun] at h
          exact Except.noConfusion h
        | ok c =>
          have hstep : step s st (.start name attrs) =
              .ok { st with chapter_num := c } := by simp [step, hln, hss]
          rw [runEvents_cons_ok rest hstep nofun] at h
          have hn' : noMatchB s st.is_law_num_mode rest = true := by
            simpa [noMatchB, hln] using hn
          exact lst_preserved s rest { st with chapter_num := c } st' h hn'
    | stop name =>
      by_cases hln : name = "LawNum"
      · subst hln
        have hstep : step s st (.stop "LawNum") =
            .ok { st with is_law_num_mode := false } := by simp [step]
        rw [runEvents_cons_ok rest hstep nofun] at h
        have hn' : noMatchB s false rest = true := by simpa [noMatchB] using hn
        exact lst_preserved s rest { st with is_law_num_mode := false } st' h hn'
      · have hstep : step s st (.stop name) = .ok st := by simp [step, hln]
        rw [runEvents_cons_ok rest hstep nofun] at h
        have hn' : noMatchB s st.is_law_num_mode rest = true := by
          simpa [noMatchB, hln] using hn
        exact lst_preserved s rest st st' h hn'
    | text t =>
      cases hm : st.is_law_num_mode with
      | true =>
        have hstep : step s st (.text t) = .ok { st with law_num := t } := by
          simp [step, hm]
        rw [runEvents_cons_ok rest hstep nofun] at h
        have hn' : noMatchB s st.is_law_num_mode rest = true := by
          rw [hm] at hn ⊢; simpa [noMatchB] using hn
        exact lst_preserved s rest { st with law_num := t } st' h hn'
      | false =>
        by_cases hc : strContains t s
        · rw [hm] at hn; simp [noMatchB, hc] at hn
        · have hstep : step s st (.text t) = .ok st := by simp [step, hm, hc]
          rw [runEvents_cons_ok rest hstep nofun] at h
          have hn' : noMatchB s st.is_law_num_mode rest = true := by
            rw [hm] at hn ⊢; simpa [noMatchB, hc] using hn
          exact lst_preserved s rest st st' h hn'
    | eof => rw [runEvents_eof] at h; cases h; rfl
    | parseErr msg =>
      have hstep : step s st (.parseErr msg) =
          .error (.panic ("法令名APIの結果のXMLの解析中のエラー: " ++ msg)) := rfl
      rw [runEvents_cons_error rest hstep nofun] at h
      exact Except.noConfusion h

/-- Claim C8: a successful run that never saw a law-number text node returns
`num = ""`, and one that never saw a matching text node returns an empty
`chapter_data`; neither condition is an error. -/
theorem c8_empty_results_ok (s : String) (events : List Event) (lp : LawParagraph)
    (h : search_xml s events = .ok lp) :
    (noLawNumTextB false events = true → lp.num = "") ∧
    (noMatchB s false events = true → lp.chapter_data = []) := by
  cases hrun : runEvents s initState events with
  | error f => rw [search_xml, hrun] at h; exact Except.noConfusion h
  | ok st' =>
    rw [search_xml, hrun] at h
    cases h
    constructor
    · intro hno
      exact law_num_preserved s events initState st' hrun hno
    · intro hno
      have hl : st'.lst = initState.lst := lst_preserved s events initState st' hrun hno
      show dedupAdj (sortChapters st'.lst) = []
      rw [hl]
      rfl

/-- Witness for C8: a document with an unrecognized element and text not
containing the term yields `num = ""` and empty `chapter_data`, with no
error. -/
theorem c8_empty_results_ok_witness :
    search_xml "xyz" [.start "Foo" [], .text "hello", .eof] = .ok ⟨"", []⟩ ∧
    (⟨"", []⟩ : LawParagraph).num = "" ∧
    (⟨"", []⟩ : LawParagraph).chapter_data = [] := by
  have h := c8_empty_results_ok "xyz" [.start "Foo" [], .text "hello", .eof]
    ⟨"", []⟩ rfl
  exact ⟨rfl, h.1 (by decide), h.2 (by decide)⟩

/-- The element kinds whose start handler unwraps a required `Num`
attribute (lib.rs lines 165–396). `Part` is not among them. -/
def reqNumNames : List String :=
  ["Article", "Paragraph", "Item", "SubItem1", "SubItem2", "SubItem3", "SubItem4",
    "SubItem5", "SubItem6", "SubItem7"]

/-- Counterexample to claim C9 as stated: a `Part` start event with no
attributes at all (hence no `Num`) is processed without any error — the
`Part` branch reads no attribute, so the run completes normally. -/
theorem c9_counterexample :
    stepStart "Part" [] Chapter.empty =
      .ok ⟨some 1, none, none, none, none, "", none, none, none, none⟩ ∧
    search_xml "w" [.start "Part" [], .eof] = .ok ⟨"", []⟩ := ⟨rfl, rfl⟩

/-- Claim C9 (amended): a start event of an Article/Paragraph/Item/
SubItem1–7 element lacking its `Num` attribute is fatal — the unwrap panic
aborts the whole run; `Part` requires no attribute (and `SupplProvision`'s
`AmendLawNum` is optional), so those kinds never abort this way. -/
theorem c9_missing_num_aborts (name : String) (attrs : List (String × String))
    (c : Chapter) (hmem : name ∈ reqNumNames)
    (hattr : findAttr attrs "Num" = none) :
    stepStart name attrs c = .error unwrapNone ∧
    (∀ (rest : List Event) (s : String),
      search_xml s (.start name attrs :: rest) = .error unwrapNone) := by
  have haux : ∀ c' : Chapter, stepStart name attrs c' = .error unwrapNone := by
    intro c'
    fin_cases hmem <;> simp [stepStart, hattr]
  refine ⟨haux c, ?_⟩
  intro rest s
  have hln : name ≠ "LawNum" := by fin_cases hmem <;> decide
  have hstep : step s initState (.start name attrs) = .error unwrapNone := by
    simp [step, hln, haux initState.chapter_num]
  rw [search_xml, runEvents_cons_error rest hstep nofun]

/-- Witness for C9 (amended): a `Paragraph` start whose attributes carry no
`Num` aborts the whole run with the unwrap panic. -/
theorem c9_missing_num_aborts_witness :
    stepStart "Paragraph" [("Kind", "x")] Chapter.empty = .error unwrapNone ∧
    search_xml "w" [.start "Paragraph" [("Kind", "x")], .text "w", .eof] =
      .error unwrapNone := by
  have h := c9_missing_num_aborts "Paragraph" [("Kind", "x")] Chapter.empty
    (by decide) rfl
  exact ⟨h.1, h.2 [.text "w", .eof] "w"⟩

/-- Counterexample to claim C10 as stated: a reader parse failure is raised
as a process panic (the `panic!` arm of lib.rs:441), which is a different
outcome from the function's error result. -/
theorem c10_counterexample :
    search_xml "w" [.parseErr "boom"] =
      .error (.panic "法令名APIの結果のXMLの解析中のエラー: boom") ∧
    Fatal.panic "法令名APIの結果のXMLの解析中のエラー: boom" ≠
      Fatal.err "法令名APIの結果のXMLの解析中のエラー: boom" := ⟨rfl, by decide⟩

/-- Claim C10 (amended): when the event source reports a parse failure after
any eof-free prefix, `search_xml` stops consuming events (the tail is never
examined) and aborts by panicking with the parse error message — the failure
is a process panic, not the function's returned error result. -/
theorem c10_parse_failure_panics (s msg : String) (es rest : List Event)
    (st1 : LoopState) (hno : Event.eof ∉ es)
    (h : runEvents s initState es = .ok st1) :
    search_xml s (es ++ .parseErr msg :: rest) =
      .error (.panic ("法令名APIの結果のXMLの解析中のエラー: " ++ msg)) := by
  have hstep : step s st1 (.parseErr msg) =
      .error (.panic ("法令名APIの結果のXMLの解析中のエラー: " ++ msg)) := rfl
  rw [search_xml, runEvents_append_ok _ hno h, runEvents_cons_error rest hstep nofun]

/-- Witness for C10 (amended): a parse failure right after a `Chapter` start
panics and ignores the rest of the stream. -/
theorem c10_parse_failure_panics_witness :
    search_xml "w" ([.start "Chapter" []] ++ .parseErr "x" :: [.text "w", .eof]) =
      .error (.panic ("法令名APIの結果のXMLの解析中のエラー: " ++ "x")) :=
  c10_parse_failure_panics "w" "x" [.start "Chapter" []] [.text "w", .eof]
    ⟨[], ⟨none, some 1, none, none, none, "", none, none, none, none⟩, "", false⟩
    (by decide) rfl

end SearchArticleWithWord
